import Mathlib

/-!
Verification of the Mixxx REST API server (`src/api/restapiserver.cpp`,
`src/api/restapiserver.h`) against its natural-language specification.

The server core (request parsing, routing, endpoint handlers, response
building) is embedded shallowly: `QByteArray`/`QString` become `String`,
`QMap` becomes an association list with replace-on-insert, `QJsonObject`
becomes an association list of `Json` values, and the external
collaborators (control plane, player registry, track entity, Qt JSON
parsing and percent decoding) are modelled from the spec's boundary
description in §6.  Numeric control values (C++ `double`) are modelled
as `Rat`.
-/

/-- JSON values, modelling Qt's `QJsonValue`.  Objects are association
lists of fields; `QJsonObject` stores keys uniquely (insert replaces). -/
inductive Json where
  | null
  | bool (b : Bool)
  | num (q : Rat)
  | str (s : String)
  | arr (elems : List Json)
  | obj (fields : List (String × Json))

/-- Lookup in an association-list map (`QMap::value` / `QJsonObject` key
lookup): the value at the first matching key, if any. -/
def mapLookup {α : Type} : List (String × α) → String → Option α
  | [], _ => none
  | (k, v) :: rest, key => if k = key then some v else mapLookup rest key

/-- Insert into an association-list map (`QMap::operator[]=` /
`QJsonObject::operator[]=`): replaces the value at an existing key,
otherwise appends a fresh entry.  (Qt's maps iterate in key-sorted
order; this model keeps insertion order, which is observationally
equivalent for lookup and key-set questions.) -/
def mapInsert {α : Type} : List (String × α) → String → α → List (String × α)
  | [], key, v => [(key, v)]
  | (k, w) :: rest, key, v =>
      if k = key then (key, v) :: rest else (k, w) :: mapInsert rest key v

/-- QJsonValue::toDouble(): the stored number when the value is a JSON
number, otherwise the default 0. -/
def Json.toDouble : Json → Rat
  | .num q => q
  | _ => 0

mutual
/-- Modelled from the spec: JSON serialization of a response document
(`QJsonDocument::toJson`), an external Qt collaborator.  Only used to
turn the JSON objects built by the handlers into response body text. -/
def jsonToString : Json → String
  | .null => "null"
  | .bool b => if b then "true" else "false"
  | .num q => toString q.num ++ (if q.den = 1 then "" else "/" ++ toString q.den)
  | .str s => "\"" ++ s ++ "\""
  | .arr xs => "[" ++ jsonArrToString xs ++ "]"
  | .obj fs => "\x7b" ++ jsonObjToString fs ++ "\x7d"

def jsonArrToString : List Json → String
  | [] => ""
  | [x] => jsonToString x
  | x :: y :: rest => jsonToString x ++ "," ++ jsonArrToString (y :: rest)

def jsonObjToString : List (String × Json) → String
  | [] => ""
  | [(k, v)] => "\"" ++ k ++ "\":" ++ jsonToString v
  | (k, v) :: p :: rest =>
      "\"" ++ k ++ "\":" ++ jsonToString v ++ "," ++ jsonObjToString (p :: rest)
end

/-- Accumulator-passing core of `splitOnChar`. -/
def splitCharAux (c : Char) : List Char → List Char → List String
  | acc, [] => [⟨acc.reverse⟩]
  | acc, x :: rest =>
      if x == c then ⟨acc.reverse⟩ :: splitCharAux c [] rest
      else splitCharAux c (x :: acc) rest

/-- Split a string at every occurrence of a single character, keeping
empty parts (`QByteArray::split(char)` / `QString::split(QChar)`);
always returns a non-empty list. -/
def splitOnChar (c : Char) (s : String) : List String :=
  splitCharAux c [] s.data

/-- Join a list of strings with a single-character separator
(`QList::join(char)`). -/
def joinWithChar (c : Char) : List String → String
  | [] => ""
  | [x] => x
  | x :: y :: rest => x ++ ⟨[c]⟩ ++ joinWithChar c (y :: rest)

/-- QString::toLower restricted to ASCII case mapping. -/
def qtToLower (s : String) : String :=
  ⟨s.data.map Char.toLower⟩

/-- ASCII whitespace as recognised by `QByteArray::trimmed`. -/
def isAsciiSpace (c : Char) : Bool :=
  c == ' ' || c == '\t' || c == '\n' || c == '\r' || c == '\x0b' || c == '\x0c'

/-- QByteArray::trimmed: strip ASCII whitespace from both ends. -/
def baTrim (s : String) : String :=
  ⟨((s.data.dropWhile isAsciiSpace).reverse.dropWhile isAsciiSpace).reverse⟩

/-- Parsed HTTP request (struct `HttpRequest` in `restapiserver.h`). -/
structure HttpRequest where
  method : String := ""
  path : String := ""
  headers : List (String × String) := []
  body : String := ""

/-- HTTP response under construction (struct `HttpResponse` in
`restapiserver.h`), with the C++ member initialisers as defaults. -/
structure HttpResponse where
  statusCode : Nat := 200
  statusText : String := "OK"
  headers : List (String × String) := []
  body : String := ""

/-- One header line of `parseHttpRequest`: split at the first colon;
when the colon exists at a positive index, trim and lower-case the key,
trim the value, and store it (last write wins via `mapInsert`);
otherwise the line is silently skipped. -/
def processHeaderLine (headers : List (String × String)) (line : String) :
    List (String × String) :=
  match line.data.findIdx? (fun c => c == ':') with
  | some ci =>
      if 0 < ci then
        let key := qtToLower (baTrim ⟨line.data.take ci⟩)
        let value := baTrim ⟨line.data.drop (ci + 1)⟩
        mapInsert headers key value
      else headers
  | none => headers

/-- The header loop of `parseHttpRequest`: walk the lines after the
request line, accumulating headers, stopping at the first line that is
empty after trimming; returns the headers together with
`headerEndIndex` (the C++ variable: one past the terminator when one
was found, and its initial value 1 when the loop ran off the end). -/
def headerScan (headers : List (String × String)) (i : Nat) :
    List String → List (String × String) × Nat
  | [] => (headers, 1)
  | l :: rest =>
      let line := baTrim l
      if line.isEmpty then (headers, i + 1)
      else headerScan (processHeaderLine headers line) (i + 1) rest

/-- RestApiServer::parseHttpRequest: split the raw bytes on line-feed;
the first line (trimmed, split on spaces) gives method and path when it
has at least two tokens; headers run until the first blank line; the
body is every remaining line rejoined with line-feed. -/
def parseHttpRequest (data : String) : HttpRequest :=
  let lines := splitOnChar '\n' data
  let requestLine := splitOnChar ' ' (baTrim (lines.headD ""))
  let method := if 2 ≤ requestLine.length then requestLine.getD 0 "" else ""
  let path := if 2 ≤ requestLine.length then requestLine.getD 1 "" else ""
  let scan := headerScan [] 1 (lines.drop 1)
  let body :=
    if scan.2 < lines.length then joinWithChar '\n' (lines.drop scan.2)
    else ""
  { method := method, path := path, headers := scan.1, body := body }

/-- Hexadecimal digit value of a character, if it is one. -/
def hexDigitVal (c : Char) : Option Nat :=
  if '0' ≤ c ∧ c ≤ '9' then some (c.toNat - '0'.toNat)
  else if 'a' ≤ c ∧ c ≤ 'f' then some (c.toNat - 'a'.toNat + 10)
  else if 'A' ≤ c ∧ c ≤ 'F' then some (c.toNat - 'A'.toNat + 10)
  else none

/-- Character-list core of `percentDecode`: a percent sign followed by
two hexadecimal digits becomes the encoded character; anything else is
copied through unchanged. -/
def percentDecodeChars : List Char → List Char
  | '%' :: a :: b :: rest =>
      match hexDigitVal a, hexDigitVal b with
      | some x, some y => Char.ofNat (16 * x + y) :: percentDecodeChars rest
      | _, _ => '%' :: percentDecodeChars (a :: b :: rest)
  | c :: rest => c :: percentDecodeChars rest
  | [] => []

/-- Modelled from the spec: percent-decoding of path parameters
(`QUrl::fromPercentEncoding`), an external Qt collaborator. -/
def percentDecode (s : String) : String :=
  ⟨percentDecodeChars s.data⟩

/-- QString::startsWith(QChar): the string is non-empty and its first
character is the given one. -/
def qStartsWith (s : String) (c : Char) : Bool :=
  match s.data with
  | [] => false
  | c0 :: _ => c0 == c

/-- Group-name normalization from `handleRequest`: a decoded group that
does not start with a bracket is wrapped as `[group]`. -/
def normalizeGroup (group : String) : String :=
  if qStartsWith group '[' then group else "[" ++ group ++ "]"

/-- Modelled from the spec: one control of the external control plane
(§6).  `value` is its current numeric value; `onSet current requested`
is the value actually stored by `set` (the control plane may clamp or
reject a written value). -/
structure Control where
  value : Rat
  onSet : Rat → Rat → Rat

/-- Association-list lookup keyed by `ConfigKey` (group, item) pairs. -/
def cpFind : List ((String × String) × Control) → String → String → Option Control
  | [], _, _ => none
  | (k, c) :: rest, g, i => if k = (g, i) then some c else cpFind rest g i

/-- Update of the first control matching (group, item): its stored value
becomes `onSet current requested`. -/
def cpStore : List ((String × String) × Control) → String → String → Rat →
    List ((String × String) × Control)
  | [], _, _, _ => []
  | (k, c) :: rest, g, i, v =>
      if k = (g, i) then (k, { c with value := c.onSet c.value v }) :: rest
      else (k, c) :: cpStore rest g i v

/-- Modelled from the spec: the external control plane (§6), a keyed
registry mapping (group, item) to a numeric control. -/
structure ControlPlane where
  controls : List ((String × String) × Control)

/-- ControlObject::getControl(ConfigKey(group, item)): the control, if
it exists. -/
def ControlPlane.getControl (cp : ControlPlane) (group item : String) : Option Control :=
  cpFind cp.controls group item

/-- ControlObject::set through the control plane: writes may be clamped
by the control itself (`Control.onSet`). -/
def ControlPlane.set (cp : ControlPlane) (group item : String) (v : Rat) : ControlPlane :=
  ⟨cpStore cp.controls group item v⟩

/-- Modelled from the spec: the external track entity (§6), read-only
metadata accessors. -/
structure Track where
  artist : String
  title : String
  album : String
  albumArtist : String
  genre : String
  composer : String
  year : String
  comment : String
  duration : Rat
  bpm : Rat
  keyText : String
  location : String
  fileType : String

/-- Modelled from the spec: the state visible to the server — the
control plane and the player/track registry (`PlayerInfo`), whose
loaded-tracks mapping sends group names to loaded tracks. -/
structure ServerState where
  cp : ControlPlane
  players : List (String × Track)

/-- PlayerInfo::getTrackInfo(group): the loaded track of a group. -/
def getTrackInfo (st : ServerState) (group : String) : Option Track :=
  mapLookup st.players group

/-- RestApiServer::getTrackMetadata: the thirteen pass-through metadata
fields of a (non-null) track. -/
def getTrackMetadata (track : Track) : List (String × Json) :=
  [("artist", Json.str track.artist),
   ("title", Json.str track.title),
   ("album", Json.str track.album),
   ("album_artist", Json.str track.albumArtist),
   ("genre", Json.str track.genre),
   ("composer", Json.str track.composer),
   ("year", Json.str track.year),
   ("comment", Json.str track.comment),
   ("duration", Json.num track.duration),
   ("bpm", Json.num track.bpm),
   ("key", Json.str track.keyText),
   ("location", Json.str track.location),
   ("file_type", Json.str track.fileType)]

/-- The `getControlValue` lambdas of `getPlayerStatus` and
`getAllPlayersStatus`: the control's value, or JSON null when the
control does not exist. -/
def controlValueJson (st : ServerState) (group item : String) : Json :=
  match st.cp.getControl group item with
  | some c => Json.num c.value
  | none => Json.null

/-- RestApiServer::getPlayerStatus: the per-group status object — the
track metadata (JSON null when no track is loaded) followed by the
thirteen named playback controls.  The C++ builds this by consecutive
`QJsonObject` inserts at distinct keys into an empty object, written
here as the resulting field list; note that every key is inserted even
when its value is null. -/
def getPlayerStatus (st : ServerState) (group : String) : List (String × Json) :=
  let trackJson : Json :=
    match getTrackInfo st group with
    | some t => Json.obj (getTrackMetadata t)
    | none => Json.null
  [("track", trackJson),
   ("play", controlValueJson st group "play"),
   ("play_indicator", controlValueJson st group "play_indicator"),
   ("playposition", controlValueJson st group "playposition"),
   ("duration", controlValueJson st group "duration"),
   ("volume", controlValueJson st group "volume"),
   ("pregain", controlValueJson st group "pregain"),
   ("bpm", controlValueJson st group "bpm"),
   ("rate", controlValueJson st group "rate"),
   ("tempo_ratio", controlValueJson st group "tempo_ratio"),
   ("keylock", controlValueJson st group "keylock"),
   ("repeat", controlValueJson st group "repeat"),
   ("loop_enabled", controlValueJson st group "loop_enabled"),
   ("track_loaded", controlValueJson st group "track_loaded")]

/-- RestApiServer::getAllPlayersStatus: one status object per entry of
the loaded-tracks mapping (each with its `group` added), plus the fixed
`master` block of four `[Master]` control values. -/
def getAllPlayersStatus (st : ServerState) : List (String × Json) :=
  let players := st.players.map
    (fun p => Json.obj (mapInsert (getPlayerStatus st p.1) "group" (Json.str p.1)))
  [("players", Json.arr players),
   ("master", Json.obj
     [("volume", controlValueJson st "[Master]" "volume"),
      ("balance", controlValueJson st "[Master]" "balance"),
      ("headVolume", controlValueJson st "[Master]" "headVolume"),
      ("headMix", controlValueJson st "[Master]" "headMix")])]

/-- RestApiServer::handleGetStatus: always a 200 response carrying the
aggregate status document. -/
def handleGetStatus (st : ServerState) : HttpResponse :=
  { body := jsonToString (Json.obj (getAllPlayersStatus st)) }

/-- RestApiServer::handleGetPlayer: 404 `Player not found` when the
status object is empty, otherwise 200 with the status object. -/
def handleGetPlayer (st : ServerState) (group : String) : HttpResponse :=
  let json := getPlayerStatus st group
  if json.isEmpty then
    { statusCode := 404, statusText := "Not Found",
      body := jsonToString (Json.obj
        [("error", Json.str "Player not found"), ("group", Json.str group)]) }
  else
    { body := jsonToString (Json.obj json) }

/-- RestApiServer::handleGetControl: 404 when the control does not
exist, otherwise 200 with the current value. -/
def handleGetControl (st : ServerState) (group item : String) : HttpResponse :=
  match st.cp.getControl group item with
  | none =>
      { statusCode := 404, statusText := "Not Found",
        body := jsonToString (Json.obj
          [("error", Json.str "Control not found"),
           ("group", Json.str group), ("item", Json.str item)]) }
  | some c =>
      { body := jsonToString (Json.obj
          [("group", Json.str group), ("item", Json.str item),
           ("value", Json.num c.value)]) }

/-- RestApiServer::handleSetControl: parse the body with the external
JSON parse function (`QJsonDocument::fromJson`, passed in as
`jsonParse`; `none` models both parse failure and a non-object
document).  400 without a write when the body is not a JSON object or
lacks `value`; 404 when the control does not exist; otherwise write the
coerced value and answer with the post-write read-back
(`pControl->get()` after `pControl->set(value)`). -/
def handleSetControl (st : ServerState) (jsonParse : String → Option Json)
    (group item : String) (body : String) : HttpResponse × ServerState :=
  match jsonParse body with
  | some (Json.obj requestJson) =>
      match mapLookup requestJson "value" with
      | none =>
          ({ statusCode := 400, statusText := "Bad Request",
             body := jsonToString (Json.obj
               [("error", Json.str "Missing \x27value\x27 field in request body")]) },
           st)
      | some jsonValue =>
          let value := jsonValue.toDouble
          match st.cp.getControl group item with
          | none =>
              ({ statusCode := 404, statusText := "Not Found",
                 body := jsonToString (Json.obj
                   [("error", Json.str "Control not found"),
                    ("group", Json.str group), ("item", Json.str item)]) },
               st)
          | some c =>
              ({ body := jsonToString (Json.obj
                   [("success", Json.bool true),
                    ("group", Json.str group), ("item", Json.str item),
                    ("value", Json.num (c.onSet c.value value))]) },
               { st with cp := st.cp.set group item value })
  | _ =>
      ({ statusCode := 400, statusText := "Bad Request",
         body := jsonToString (Json.obj
           [("error",
             Json.str "Invalid JSON body. Expected \x7b\"value\": <number>\x7d")]) },
       st)

/-- Query-string removal for the last path segment: everything before
the first question mark (`lastPart.left(lastPart.indexOf(QChar 63))`,
a no-op when there is none). -/
def stripQuery (s : String) : String :=
  ⟨s.data.takeWhile (fun c => c != '?')⟩

/-- Apply a function to the last element of a list, if any. -/
def modifyLast (f : String → String) : List String → List String
  | [] => []
  | [x] => [f x]
  | x :: y :: rest => x :: modifyLast f (y :: rest)

/-- Path segmentation of `handleRequest`: split on slashes discarding
empty parts (`Qt::SkipEmptyParts`), then strip any query string from
the final segment. -/
def splitPath (path : String) : List String :=
  modifyLast stripQuery ((splitOnChar '/' path).filter (fun s => !s.isEmpty))

/-- Routing portion of RestApiServer::handleRequest, applied to the
already-computed path segments. -/
def route (st : ServerState) (jsonParse : String → Option Json)
    (method : String) (pathParts : List String) (body : String) :
    HttpResponse × ServerState :=
  if pathParts.isEmpty ∨ pathParts.headD "" ≠ "api" then
    ({ statusCode := 404, statusText := "Not Found",
       body := jsonToString (Json.obj
         [("error", Json.str "Not Found"),
          ("message", Json.str "API endpoints are under /api")]) }, st)
  else if pathParts.length < 2 then
    ({ statusCode := 400, statusText := "Bad Request",
       body := jsonToString (Json.obj [("error", Json.str "Bad Request")]) }, st)
  else
    let endpoint := pathParts.getD 1 ""
    if endpoint = "status" ∧ method = "GET" then
      (handleGetStatus st, st)
    else if endpoint = "player" ∧ 3 ≤ pathParts.length ∧ method = "GET" then
      (handleGetPlayer st (normalizeGroup (percentDecode (pathParts.getD 2 ""))), st)
    else if endpoint = "control" ∧ 4 ≤ pathParts.length then
      let group := normalizeGroup (percentDecode (pathParts.getD 2 ""))
      let item := percentDecode (pathParts.getD 3 "")
      if method = "GET" then (handleGetControl st group item, st)
      else if method = "POST" then handleSetControl st jsonParse group item body
      else
        ({ statusCode := 405, statusText := "Method Not Allowed",
           body := jsonToString (Json.obj
             [("error", Json.str "Method Not Allowed")]) }, st)
    else
      ({ statusCode := 404, statusText := "Not Found",
         body := jsonToString (Json.obj
           [("error", Json.str "Endpoint not found")]) }, st)

/-- RestApiServer::handleRequest: the CORS preflight short-circuit for
OPTIONS, then path segmentation and routing.  Returns the single
response produced for the request together with the resulting server
state (only a successful control write changes it). -/
def handleRequest (st : ServerState) (jsonParse : String → Option Json)
    (request : HttpRequest) : HttpResponse × ServerState :=
  if request.method = "OPTIONS" then
    ({ statusCode := 204, statusText := "No Content" }, st)
  else
    route st jsonParse request.method (splitPath request.path) request.body

/-- Header finalisation of RestApiServer::sendHttpResponse: the computed
`Content-Length`, the `Content-Type` default when the handler set none,
and the three fixed CORS headers, appended over the handler's own
headers. -/
def responseHeaders (r : HttpResponse) : List (String × String) :=
  let h1 := mapInsert r.headers "Content-Length" (toString r.body.utf8ByteSize)
  let h2 :=
    if (mapLookup h1 "Content-Type").isSome then h1
    else mapInsert h1 "Content-Type" "application/json"
  let h3 := mapInsert h2 "Access-Control-Allow-Origin" "*"
  let h4 := mapInsert h3 "Access-Control-Allow-Methods" "GET, POST, OPTIONS"
  mapInsert h4 "Access-Control-Allow-Headers" "Content-Type"

/-- Declarative description of the C++ `headerEndIndex` variable of
`parseHttpRequest`: two past the index (within the post-request-line
lines) of the first line that is blank after trimming, or the initial
value 1 when no blank line exists. -/
def headerEndIndexSpec (lines : List String) : Nat :=
  match (lines.drop 1).findIdx? (fun l => (baTrim l).isEmpty) with
  | some j => j + 2
  | none => 1

/-- Fixture: an empty server state (no controls, no loaded tracks). -/
def emptyState : ServerState := ⟨⟨[]⟩, []⟩

/-- Fixture: a control that accepts every written value. -/
def passControl : Control := ⟨1, fun _ v => v⟩

/-- Fixture: a control that rejects every write, keeping its current
value (an extreme case of the control plane clamping a write). -/
def clampControl : Control := ⟨1, fun cur _ => cur⟩

/-- Fixture: a state with a pass-through `[Channel1] volume` control. -/
def oneControlState : ServerState :=
  ⟨⟨[(("[Channel1]", "volume"), passControl)]⟩, []⟩

/-- Fixture: a state whose only control clamps every write. -/
def clampState : ServerState :=
  ⟨⟨[(("[Channel1]", "volume"), clampControl)]⟩, []⟩

/-- Fixture: an external JSON parse function that recognises exactly the
two bodies used by the witnesses — `{}` as an empty object and
`{"value": 2}` as an object with a numeric `value` — and fails on
everything else. -/
def fixtureParse (s : String) : Option Json :=
  if s = "\x7b\x7d" then some (Json.obj [])
  else if s = "\x7b\"value\": 2\x7d" then some (Json.obj [("value", Json.num 2)])
  else if s = "\x7b\"value\": \"loud\"\x7d" then
    some (Json.obj [("value", Json.str "loud")])
  else none

theorem mapLookup_mapInsert_self {α : Type} (m : List (String × α)) (k : String) (v : α) :
    mapLookup (mapInsert m k v) k = some v := by
  induction m with
  | nil => simp [mapInsert, mapLookup]
  | cons p rest ih =>
      obtain ⟨k0, v0⟩ := p
      by_cases h : k0 = k
      · simp [mapInsert, mapLookup, h]
      · simp [mapInsert, mapLookup, h, ih]

theorem mapLookup_mapInsert_ne {α : Type} {k key : String} (m : List (String × α)) (v : α)
    (h : k ≠ key) : mapLookup (mapInsert m k v) key = mapLookup m key := by
  induction m with
  | nil => simp [mapInsert, mapLookup, h]
  | cons p rest ih =>
      obtain ⟨k0, v0⟩ := p
      by_cases h0 : k0 = k
      · subst h0
        simp [mapInsert, mapLookup, h]
      · by_cases h1 : k0 = key
        · simp [mapInsert, mapLookup, h0, h1, Ne.symm h]
        · simp [mapInsert, mapLookup, h0, h1, ih]

theorem mapLookup_isSome_iff {α : Type} (m : List (String × α)) (k : String) :
    (mapLookup m k).isSome ↔ k ∈ m.map Prod.fst := by
  induction m with
  | nil => simp [mapLookup]
  | cons p rest ih =>
      obtain ⟨k0, v0⟩ := p
      by_cases h : k0 = k
      · subst h
        simp [mapLookup]
      · simp [mapLookup, h, ih, Ne.symm h]

theorem cpFind_cpStore_self (l : List ((String × String) × Control)) (g i : String)
    (v : Rat) :
    cpFind (cpStore l g i v) g i
      = (cpFind l g i).map (fun c => { c with value := c.onSet c.value v }) := by
  induction l with
  | nil => simp [cpStore, cpFind]
  | cons p rest ih =>
      obtain ⟨k, c⟩ := p
      by_cases h : k = (g, i)
      · simp [cpStore, cpFind, h]
      · simp [cpStore, cpFind, h, ih]

theorem cp_set_get (cp : ControlPlane) (g i : String) (v : Rat) :
    (cp.set g i v).getControl g i
      = (cp.getControl g i).map (fun c => { c with value := c.onSet c.value v }) := by
  unfold ControlPlane.set ControlPlane.getControl
  exact cpFind_cpStore_self cp.controls g i v

theorem headerScan_snd (ls : List String) (m : List (String × String)) (i : Nat) :
    (headerScan m i ls).2
      = match ls.findIdx? (fun l => (baTrim l).isEmpty) with
        | some j => i + j + 1
        | none => 1 := by
  induction ls generalizing m i with
  | nil => simp [headerScan]
  | cons l rest ih =>
      by_cases h : (baTrim l).isEmpty
      · simp [headerScan, h, List.findIdx?_cons]
      · simp only [headerScan, h, if_false, Bool.false_eq_true, List.findIdx?_cons]
        rw [ih]
        cases hf : rest.findIdx? (fun l => (baTrim l).isEmpty) with
        | none => simp [hf]
        | some j => simp [hf]; omega

theorem headerScan_fst (ls : List String) (m : List (String × String)) (i : Nat) :
    (headerScan m i ls).1
      = ((ls.takeWhile (fun l => !(baTrim l).isEmpty)).foldl
          (fun acc l => processHeaderLine acc (baTrim l)) m) := by
  induction ls generalizing m i with
  | nil => simp [headerScan]
  | cons l rest ih =>
      by_cases h : (baTrim l).isEmpty
      · simp [headerScan, h, List.takeWhile_cons]
      · simp [headerScan, h, List.takeWhile_cons, ih]

theorem qStartsWith_bracket (g : String) : qStartsWith ("[" ++ g ++ "]") '[' = true := by
  obtain ⟨l⟩ := g
  rfl

theorem controlValueJson_null_or_num (st : ServerState) (g i : String) :
    controlValueJson st g i = Json.null ∨ ∃ q, controlValueJson st g i = Json.num q := by
  unfold controlValueJson
  cases st.cp.getControl g i with
  | none => exact Or.inl rfl
  | some c => exact Or.inr ⟨c.value, rfl⟩

theorem responseHeaders_lookup (r : HttpResponse) :
    mapLookup (responseHeaders r) "Content-Length" = some (toString r.body.utf8ByteSize)
    ∧ mapLookup (responseHeaders r) "Access-Control-Allow-Origin" = some "*"
    ∧ mapLookup (responseHeaders r) "Access-Control-Allow-Methods"
        = some "GET, POST, OPTIONS"
    ∧ mapLookup (responseHeaders r) "Access-Control-Allow-Headers" = some "Content-Type"
    ∧ mapLookup (responseHeaders r) "Content-Type"
        = (if (mapLookup r.headers "Content-Type").isSome
           then mapLookup r.headers "Content-Type"
           else some "application/json") := by
  have neHCL : ("Access-Control-Allow-Headers" : String) ≠ "Content-Length" := by decide
  have neMCL : ("Access-Control-Allow-Methods" : String) ≠ "Content-Length" := by decide
  have neOCL : ("Access-Control-Allow-Origin" : String) ≠ "Content-Length" := by decide
  have neTCL : ("Content-Type" : String) ≠ "Content-Length" := by decide
  have neHO : ("Access-Control-Allow-Headers" : String) ≠ "Access-Control-Allow-Origin" := by decide
  have neMO : ("Access-Control-Allow-Methods" : String) ≠ "Access-Control-Allow-Origin" := by decide
  have neHM : ("Access-Control-Allow-Headers" : String) ≠ "Access-Control-Allow-Methods" := by decide
  have neHCT : ("Access-Control-Allow-Headers" : String) ≠ "Content-Type" := by decide
  have neMCT : ("Access-Control-Allow-Methods" : String) ≠ "Content-Type" := by decide
  have neOCT : ("Access-Control-Allow-Origin" : String) ≠ "Content-Type" := by decide
  have neCLCT : ("Content-Length" : String) ≠ "Content-Type" := by decide
  simp only [responseHeaders]
  rw [mapLookup_mapInsert_ne _ _ neCLCT]
  by_cases hct : (mapLookup r.headers "Content-Type").isSome = true
  · rw [if_pos hct, if_pos hct]
    refine ⟨?_, ?_, ?_, ?_, ?_⟩
    · rw [mapLookup_mapInsert_ne _ _ neHCL, mapLookup_mapInsert_ne _ _ neMCL,
        mapLookup_mapInsert_ne _ _ neOCL, mapLookup_mapInsert_self]
    · rw [mapLookup_mapInsert_ne _ _ neHO, mapLookup_mapInsert_ne _ _ neMO,
        mapLookup_mapInsert_self]
    · rw [mapLookup_mapInsert_ne _ _ neHM, mapLookup_mapInsert_self]
    · rw [mapLookup_mapInsert_self]
    · rw [mapLookup_mapInsert_ne _ _ neHCT, mapLookup_mapInsert_ne _ _ neMCT,
        mapLookup_mapInsert_ne _ _ neOCT, mapLookup_mapInsert_ne _ _ neCLCT]
  · rw [if_neg hct, if_neg hct]
    refine ⟨?_, ?_, ?_, ?_, ?_⟩
    · rw [mapLookup_mapInsert_ne _ _ neHCL, mapLookup_mapInsert_ne _ _ neMCL,
        mapLookup_mapInsert_ne _ _ neOCL, mapLookup_mapInsert_ne _ _ neTCL,
        mapLookup_mapInsert_self]
    · rw [mapLookup_mapInsert_ne _ _ neHO, mapLookup_mapInsert_ne _ _ neMO,
        mapLookup_mapInsert_self]
    · rw [mapLookup_mapInsert_ne _ _ neHM, mapLookup_mapInsert_self]
    · rw [mapLookup_mapInsert_self]
    · rw [mapLookup_mapInsert_ne _ _ neHCT, mapLookup_mapInsert_ne _ _ neMCT,
        mapLookup_mapInsert_ne _ _ neOCT, mapLookup_mapInsert_self]

theorem handleSetControl_success_eq (st : ServerState) (jsonParse : String → Option Json)
    (group item body : String) (fields : List (String × Json)) (jv : Json) (c : Control)
    (hparse : jsonParse body = some (Json.obj fields))
    (hvalue : mapLookup fields "value" = some jv)
    (hctrl : st.cp.getControl group item = some c) :
    handleSetControl st jsonParse group item body =
      ({ statusCode := 200, statusText := "OK", headers := [],
         body := jsonToString (Json.obj
           [("success", Json.bool true), ("group", Json.str group),
            ("item", Json.str item),
            ("value", Json.num (c.onSet c.value jv.toDouble))]) },
       { st with cp := st.cp.set group item jv.toDouble }) := by
  simp only [handleSetControl, hparse, hvalue, hctrl]

/-- C1: the claim that an entirely-empty status object (no track, no
controls) yields 404 `Player not found` fails against the code: every
key of the status object is inserted even when its value is JSON null,
so the object is never empty, the 404 branch of `handleGetPlayer` is
unreachable, and a GET for a completely unknown group answers 200. -/
theorem player_endpoint_never_404 :
    (handleRequest emptyState (fun _ => none)
        { method := "GET", path := "/api/player/nonexistent-group" }).1.statusCode = 200
    ∧ ∀ (st : ServerState) (group : String),
        (getPlayerStatus st group).isEmpty = false
        ∧ (handleGetPlayer st group).statusCode = 200 :=
  ⟨by decide, fun _ _ => ⟨rfl, rfl⟩⟩

/-- C2: every parsed request yields exactly one response, and the
response builder's final headers carry a Content-Length equal to the
byte length of the body, the three fixed CORS headers, and a
Content-Type defaulting to application/json when the handler did not
set one. -/
theorem request_response_header_invariants (st : ServerState)
    (jsonParse : String → Option Json) (request : HttpRequest) :
    (∃! out : HttpResponse × ServerState, handleRequest st jsonParse request = out)
    ∧ mapLookup (responseHeaders (handleRequest st jsonParse request).1) "Content-Length"
        = some (toString (handleRequest st jsonParse request).1.body.utf8ByteSize)
    ∧ mapLookup (responseHeaders (handleRequest st jsonParse request).1)
        "Access-Control-Allow-Origin" = some "*"
    ∧ mapLookup (responseHeaders (handleRequest st jsonParse request).1)
        "Access-Control-Allow-Methods" = some "GET, POST, OPTIONS"
    ∧ mapLookup (responseHeaders (handleRequest st jsonParse request).1)
        "Access-Control-Allow-Headers" = some "Content-Type"
    ∧ mapLookup (responseHeaders (handleRequest st jsonParse request).1) "Content-Type"
        = (if (mapLookup (handleRequest st jsonParse request).1.headers
                "Content-Type").isSome
           then mapLookup (handleRequest st jsonParse request).1.headers "Content-Type"
           else some "application/json") := by
  obtain ⟨h1, h2, h3, h4, h5⟩ := responseHeaders_lookup (handleRequest st jsonParse request).1
  exact ⟨⟨handleRequest st jsonParse request, rfl, fun _ hy => hy.symm⟩, h1, h2, h3, h4, h5⟩

/-- C3: the request parser is total and structural: the input is split
on line-feed, the header block is the run of non-blank lines after the
request line and ends at the first blank line, the body is everything
after that terminator rejoined with line-feed, and a request line with
fewer than two space-separated tokens leaves method and path empty. -/
theorem parseHttpRequest_total_structure (data : String) :
    (parseHttpRequest data).body
      = (if headerEndIndexSpec (splitOnChar '\n' data) < (splitOnChar '\n' data).length
         then joinWithChar '\n'
             ((splitOnChar '\n' data).drop (headerEndIndexSpec (splitOnChar '\n' data)))
         else "")
    ∧ (parseHttpRequest data).headers
        = (((splitOnChar '\n' data).drop 1).takeWhile (fun l => !(baTrim l).isEmpty)).foldl
            (fun acc l => processHeaderLine acc (baTrim l)) []
    ∧ ((splitOnChar ' ' (baTrim ((splitOnChar '\n' data).headD ""))).length < 2 →
        (parseHttpRequest data).method = "" ∧ (parseHttpRequest data).path = "") := by
  have hsnd : (headerScan [] 1 ((splitOnChar '\n' data).drop 1)).2
      = headerEndIndexSpec (splitOnChar '\n' data) := by
    rw [headerScan_snd]
    unfold headerEndIndexSpec
    cases hf : ((splitOnChar '\n' data).drop 1).findIdx? (fun l => (baTrim l).isEmpty) with
    | none => rfl
    | some j => show 1 + j + 1 = j + 2
                omega
  refine ⟨?_, ?_, ?_⟩
  · simp only [parseHttpRequest]
    rw [hsnd]
  · simp only [parseHttpRequest]
    rw [headerScan_fst]
  · intro hlt
    have hcond : ¬ 2 ≤ (splitOnChar ' ' (baTrim ((splitOnChar '\n' data).headD ""))).length :=
      Nat.not_le.mpr hlt
    constructor
    · simp only [parseHttpRequest]
      rw [if_neg hcond]
    · simp only [parseHttpRequest]
      rw [if_neg hcond]

/-- C3 witness: a one-token request line leaves method and path empty. -/
theorem parseHttpRequest_total_structure_check :
    (parseHttpRequest "onetoken\nHost: x\n\nabc\ndef").method = ""
    ∧ (parseHttpRequest "onetoken\nHost: x\n\nabc\ndef").path = "" :=
  (parseHttpRequest_total_structure "onetoken\nHost: x\n\nabc\ndef").2.2 (by decide)

/-- C4: a POST whose body is a JSON object containing `value`, on an
existing control, writes the value and answers 200 with success, group,
item, and the post-write read-back — the value now stored in the
control plane (which may differ from the requested one). -/
theorem set_control_success_readback (st : ServerState)
    (jsonParse : String → Option Json) (group item body : String)
    (fields : List (String × Json)) (jv : Json) (c : Control)
    (hparse : jsonParse body = some (Json.obj fields))
    (hvalue : mapLookup fields "value" = some jv)
    (hctrl : st.cp.getControl group item = some c) :
    (handleSetControl st jsonParse group item body).1.statusCode = 200
    ∧ (handleSetControl st jsonParse group item body).2
        = { st with cp := st.cp.set group item jv.toDouble }
    ∧ (handleSetControl st jsonParse group item body).2.cp.getControl group item
        = some { c with value := c.onSet c.value jv.toDouble }
    ∧ (handleSetControl st jsonParse group item body).1.body
        = jsonToString (Json.obj
            [("success", Json.bool true), ("group", Json.str group),
             ("item", Json.str item),
             ("value", Json.num (c.onSet c.value jv.toDouble))]) := by
  have he := handleSetControl_success_eq st jsonParse group item body fields jv c
    hparse hvalue hctrl
  rw [he]
  refine ⟨rfl, rfl, ?_, rfl⟩
  show (st.cp.set group item jv.toDouble).getControl group item
      = some { c with value := c.onSet c.value jv.toDouble }
  rw [cp_set_get, hctrl]
  rfl

/-- C4 witness: on a clamping control the request succeeds with 200;
the response reflects the clamped read-back, not the requested 2. -/
theorem set_control_success_readback_check :
    (handleSetControl clampState fixtureParse "[Channel1]" "volume"
        "\x7b\"value\": 2\x7d").1.statusCode = 200 :=
  (set_control_success_readback clampState fixtureParse "[Channel1]" "volume"
      "\x7b\"value\": 2\x7d" [("value", Json.num 2)] (Json.num 2) clampControl
      rfl rfl rfl).1

/-- C5: a POST whose body does not parse as a JSON object is answered
400 citing invalid JSON, and a JSON object without `value` is answered
400 citing the missing field; in both cases the server state — hence
every control value — is unchanged. -/
theorem set_control_rejects_bad_body (st : ServerState)
    (jsonParse : String → Option Json) (group item body : String) :
    ((∀ fields, jsonParse body ≠ some (Json.obj fields)) →
      (handleSetControl st jsonParse group item body).1.statusCode = 400
      ∧ (handleSetControl st jsonParse group item body).1.body
          = jsonToString (Json.obj
              [("error",
                Json.str "Invalid JSON body. Expected \x7b\"value\": <number>\x7d")])
      ∧ (handleSetControl st jsonParse group item body).2 = st)
    ∧ ∀ fields, jsonParse body = some (Json.obj fields) →
        mapLookup fields "value" = none →
        (handleSetControl st jsonParse group item body).1.statusCode = 400
        ∧ (handleSetControl st jsonParse group item body).1.body
            = jsonToString (Json.obj
                [("error", Json.str "Missing \x27value\x27 field in request body")])
        ∧ (handleSetControl st jsonParse group item body).2 = st := by
  constructor
  · intro hne
    cases hj : jsonParse body with
    | none => simp [handleSetControl, hj]
    | some j =>
        cases j with
        | obj fs => exact absurd hj (hne fs)
        | null => simp [handleSetControl, hj]
        | bool b => simp [handleSetControl, hj]
        | num q => simp [handleSetControl, hj]
        | str s => simp [handleSetControl, hj]
        | arr xs => simp [handleSetControl, hj]
  · intro fields hj hv
    simp [handleSetControl, hj, hv]

/-- C5 witness: body `not-json` gives 400 and leaves the state intact;
body `{}` (an object without `value`) also gives 400. -/
theorem set_control_rejects_bad_body_check :
    ((handleSetControl oneControlState fixtureParse "[Channel1]" "volume"
        "not-json").1.statusCode = 400
      ∧ (handleSetControl oneControlState fixtureParse "[Channel1]" "volume"
          "not-json").2 = oneControlState)
    ∧ (handleSetControl oneControlState fixtureParse "[Channel1]" "volume"
        "\x7b\x7d").1.statusCode = 400 := by
  have h1 := (set_control_rejects_bad_body oneControlState fixtureParse "[Channel1]"
      "volume" "not-json").1
    (fun fields h => by
      rw [show fixtureParse "not-json" = none from rfl] at h
      exact Option.noConfusion h)
  have h2 := (set_control_rejects_bad_body oneControlState fixtureParse "[Channel1]"
      "volume" "\x7b\x7d").2 [] rfl rfl
  exact ⟨⟨h1.1, h1.2.2⟩, h2.1⟩

/-- C6: GET on a control answers 200 with the control plane's current
value when the control exists, and 404 echoing the normalized group and
the item when it does not. -/
theorem get_control_found_or_404 (st : ServerState) (group item : String) :
    (∀ c, st.cp.getControl group item = some c →
      (handleGetControl st group item).statusCode = 200
      ∧ (handleGetControl st group item).body
          = jsonToString (Json.obj
              [("group", Json.str group), ("item", Json.str item),
               ("value", Json.num c.value)]))
    ∧ (st.cp.getControl group item = none →
      (handleGetControl st group item).statusCode = 404
      ∧ (handleGetControl st group item).body
          = jsonToString (Json.obj
              [("error", Json.str "Control not found"),
               ("group", Json.str group), ("item", Json.str item)])) := by
  constructor
  · intro c hc
    simp [handleGetControl, hc]
  · intro hc
    simp [handleGetControl, hc]

/-- C6 witness: the existing fixture control answers 200, a missing
item answers 404. -/
theorem get_control_found_or_404_check :
    (handleGetControl oneControlState "[Channel1]" "volume").statusCode = 200
    ∧ (handleGetControl oneControlState "[Channel1]" "bogus").statusCode = 404 :=
  ⟨((get_control_found_or_404 oneControlState "[Channel1]" "volume").1 passControl rfl).1,
   ((get_control_found_or_404 oneControlState "[Channel1]" "bogus").2 rfl).1⟩

/-- C7: an OPTIONS request short-circuits — before any routing — to a
204 No Content response with an empty body, whatever the path, and
leaves the state unchanged. -/
theorem options_preflight_short_circuit (st : ServerState)
    (jsonParse : String → Option Json) (request : HttpRequest)
    (h : request.method = "OPTIONS") :
    handleRequest st jsonParse request =
      ({ statusCode := 204, statusText := "No Content", headers := [], body := "" },
       st) := by
  simp [handleRequest, h]

/-- C7 witness: OPTIONS on a path without the api prefix still yields
the empty 204 response. -/
theorem options_preflight_short_circuit_check :
    handleRequest emptyState (fun _ => none)
        { method := "OPTIONS", path := "/definitely/not/api" } =
      ({ statusCode := 204, statusText := "No Content", headers := [], body := "" },
       emptyState) :=
  options_preflight_short_circuit emptyState (fun _ => none) _ rfl

/-- C8: GET /api/status always answers 200 with the aggregate document:
a `players` array with exactly one entry per loaded-tracks mapping
entry, and a `master` object with exactly the four keys volume,
balance, headVolume, headMix, each of whose values is JSON null or a
number. -/
theorem status_endpoint_players_and_master (st : ServerState)
    (jsonParse : String → Option Json) (headers : List (String × String))
    (body : String) :
    (handleRequest st jsonParse
        { method := "GET", path := "/api/status", headers := headers, body := body }).1
      = handleGetStatus st
    ∧ (handleGetStatus st).statusCode = 200
    ∧ (handleGetStatus st).body = jsonToString (Json.obj (getAllPlayersStatus st))
    ∧ (∃ players, mapLookup (getAllPlayersStatus st) "players" = some (Json.arr players)
        ∧ players.length = st.players.length)
    ∧ ∃ master, mapLookup (getAllPlayersStatus st) "master" = some (Json.obj master)
        ∧ (∀ k, (mapLookup master k).isSome
            ↔ k ∈ ["volume", "balance", "headVolume", "headMix"])
        ∧ (∀ k v, mapLookup master k = some v
            → v = Json.null ∨ ∃ q, v = Json.num q) := by
  refine ⟨rfl, rfl, rfl, ⟨_, rfl, by simp⟩, ⟨_, rfl, ?_, ?_⟩⟩
  · intro k
    rw [mapLookup_isSome_iff]
    simp
  · intro k v hv
    simp only [mapLookup] at hv
    split_ifs at hv
    · obtain rfl : controlValueJson st "[Master]" "volume" = v := Option.some.inj hv
      exact controlValueJson_null_or_num st "[Master]" "volume"
    · obtain rfl : controlValueJson st "[Master]" "balance" = v := Option.some.inj hv
      exact controlValueJson_null_or_num st "[Master]" "balance"
    · obtain rfl : controlValueJson st "[Master]" "headVolume" = v := Option.some.inj hv
      exact controlValueJson_null_or_num st "[Master]" "headVolume"
    · obtain rfl : controlValueJson st "[Master]" "headMix" = v := Option.some.inj hv
      exact controlValueJson_null_or_num st "[Master]" "headMix"

/-- C8 witness: the status request on the empty fixture state routes to
the aggregate handler. -/
theorem status_endpoint_players_and_master_check :
    (handleRequest emptyState (fun _ => none)
        { method := "GET", path := "/api/status" }).1 = handleGetStatus emptyState :=
  (status_endpoint_players_and_master emptyState (fun _ => none) [] "").1

/-- C9: a decoded group not starting with a bracket is wrapped as
`[group]`, and the normalization is applied identically on the player
and control endpoints, so `g` and `[g]` produce identical responses. -/
theorem group_bracket_normalization (st : ServerState)
    (jsonParse : String → Option Json) (g item body : String)
    (hnb : qStartsWith g '[' = false)
    (hg : percentDecode g = g)
    (hbr : percentDecode ("[" ++ g ++ "]") = "[" ++ g ++ "]") :
    (∀ h, qStartsWith h '[' = false → normalizeGroup h = "[" ++ h ++ "]")
    ∧ route st jsonParse "GET" ["api", "player", g] body
        = route st jsonParse "GET" ["api", "player", "[" ++ g ++ "]"] body
    ∧ route st jsonParse "GET" ["api", "control", g, item] body
        = route st jsonParse "GET" ["api", "control", "[" ++ g ++ "]", item] body
    ∧ route st jsonParse "POST" ["api", "control", g, item] body
        = route st jsonParse "POST" ["api", "control", "[" ++ g ++ "]", item] body := by
  have hwrap : ∀ h : String, qStartsWith h '[' = false
      → normalizeGroup h = "[" ++ h ++ "]" := by
    intro h hh
    simp [normalizeGroup, hh]
  have hgr : normalizeGroup (percentDecode g)
      = normalizeGroup (percentDecode ("[" ++ g ++ "]")) := by
    rw [hg, hbr, hwrap g hnb]
    simp [normalizeGroup, qStartsWith_bracket]
  have e1 : ∀ x : String, route st jsonParse "GET" ["api", "player", x] body
      = (handleGetPlayer st (normalizeGroup (percentDecode x)), st) := fun _ => rfl
  have e2 : ∀ x : String, route st jsonParse "GET" ["api", "control", x, item] body
      = (handleGetControl st (normalizeGroup (percentDecode x)) (percentDecode item),
         st) := fun _ => rfl
  have e3 : ∀ x : String, route st jsonParse "POST" ["api", "control", x, item] body
      = handleSetControl st jsonParse (normalizeGroup (percentDecode x))
          (percentDecode item) body := fun _ => rfl
  refine ⟨hwrap, ?_, ?_, ?_⟩
  · rw [e1, e1, hgr]
  · rw [e2, e2, hgr]
  · rw [e3, e3, hgr]

/-- C9 witness: `Channel1` and `[Channel1]` produce identical responses
on the control endpoint. -/
theorem group_bracket_normalization_check :
    route oneControlState fixtureParse "GET" ["api", "control", "Channel1", "volume"] ""
      = route oneControlState fixtureParse "GET"
          ["api", "control", "[Channel1]", "volume"] "" :=
  (group_bracket_normalization oneControlState fixtureParse "Channel1" "volume" ""
      (by decide) (by decide) (by decide)).2.2.1

/-- C10: a present but non-numeric `value` is not rejected with 400: it
coerces to 0, the write happens with 0, and the response is a 200
success carrying the post-write read-back. -/
theorem set_control_non_numeric_value (st : ServerState)
    (jsonParse : String → Option Json) (group item body : String)
    (fields : List (String × Json)) (jv : Json) (c : Control)
    (hparse : jsonParse body = some (Json.obj fields))
    (hvalue : mapLookup fields "value" = some jv)
    (hnn : ∀ q : Rat, jv ≠ Json.num q)
    (hctrl : st.cp.getControl group item = some c) :
    jv.toDouble = 0
    ∧ (handleSetControl st jsonParse group item body).1.statusCode = 200
    ∧ (handleSetControl st jsonParse group item body).2
        = { st with cp := st.cp.set group item 0 }
    ∧ (handleSetControl st jsonParse group item body).1.body
        = jsonToString (Json.obj
            [("success", Json.bool true), ("group", Json.str group),
             ("item", Json.str item), ("value", Json.num (c.onSet c.value 0))]) := by
  have h0 : jv.toDouble = 0 := by
    cases jv with
    | num q => exact absurd rfl (hnn q)
    | null => rfl
    | bool b => rfl
    | str s => rfl
    | arr xs => rfl
    | obj fs => rfl
  have he := handleSetControl_success_eq st jsonParse group item body fields jv c
    hparse hvalue hctrl
  rw [h0] at he
  rw [he]
  exact ⟨h0, rfl, rfl, rfl⟩

/-- C10 witness: a string `value` on an existing control still answers
200 (not 400). -/
theorem set_control_non_numeric_value_check :
    (handleSetControl oneControlState fixtureParse "[Channel1]" "volume"
        "\x7b\"value\": \"loud\"\x7d").1.statusCode = 200 :=
  (set_control_non_numeric_value oneControlState fixtureParse "[Channel1]" "volume"
      "\x7b\"value\": \"loud\"\x7d" [("value", Json.str "loud")] (Json.str "loud")
      passControl rfl rfl (fun _ h => Json.noConfusion h) rfl).2.1
